import Mathlib

/-!
Shallow embedding of `chrome-pool` (src/index.js), class `ChromeTabsPool`.

The pool keeps `tabs`, a JS object mapping a tab id to `{ free, client }`.
JS objects with string keys enumerate in insertion order, so `tabs` is
modelled as an insertion-ordered association list `List (String × Bool)`
carrying the `free` flag (the `client` handle is an external
resource, identified here with its tab id).  `maxTab` defaults to
`Infinity`, modelled by `Capacity.infinite`.  `requireResolveTasks` is the
array of parked `require` resolvers: `unshift` adds at the head, `pop`
removes at the tail, so the list is newest-first.  Resolvers are
identified by the numeric tag of the caller that parked.

Two layers are built:
* `PoolState` plus `createTab`, `requireStep`, `releaseStep`,
  `resumeWaiter` model one live pool operation each, translated line by
  line from src/index.js.
* `PoolObj` models the mutable object with its nullable fields, so that
  `destroyPoll` (which assigns `null` to `tabs`, `chromeLauncher`, `port`
  and `requireResolveTasks`) and the `TypeError`s raised by later calls
  can be stated.

On top of the live layer, `Step`/`Reaches` give the serialized
(event-loop-atomic) semantics of whole operations, instrumented with a
ghost `holders` list recording which caller currently holds which tab id
(a hold starts when `require` grants an id, or when a release hands the
id to a parked waiter, and ends at the next `release` of that id).
-/

namespace ChromePool

/-- Source `maxTab`: either a number or the default `Infinity`. -/
inductive Capacity where
  | finite (n : Nat)
  | infinite
deriving DecidableEq, Repr

/-- Source test `tabCount < this.maxTab` (src/index.js line 116); every
number is smaller than `Infinity`. -/
def capLt (n : Nat) : Capacity → Bool
  | .finite m => n < m
  | .infinite => true

/-- Errors a pool operation can raise: `typeError` models the JS
`TypeError` raised by dereferencing `undefined`/`null`, `navigateError`
models a rejected `Page.navigate` during release. -/
inductive JsError where
  | typeError
  | navigateError
deriving DecidableEq, Repr

deriving instance DecidableEq for Except

/-- The live state of a `ChromeTabsPool`: the `tabs` object (insertion
order preserved, second component is the `free` flag), `maxTab`, and the
`requireResolveTasks` array (newest waiter first). -/
structure PoolState where
  tabs : List (String × Bool)
  maxTab : Capacity
  requireResolveTasks : List Nat
deriving DecidableEq, Repr

/-- Source `Object.keys(this.tabs)` — the tab ids in insertion order. -/
def tabKeys (tabs : List (String × Bool)) : List String :=
  tabs.map Prod.fst

/-- Source `this.tabs[id]` — the `free` flag of the entry stored under `id`,
or `none` when the key is absent. -/
def lookupTab : List (String × Bool) → String → Option Bool
  | [], _ => none
  | e :: rest, id => if e.1 = id then some e.2 else lookupTab rest id

/-- Source `this.tabs[id].free = b` — update the `free` flag of the entry keyed
`id`, keeping its position. -/
def setTabFree : List (String × Bool) → String → Bool → List (String × Bool)
  | [], _, _ => []
  | e :: rest, id, b => (if e.1 = id then (e.1, b) else e) :: setTabFree rest id b

/-- Source `Object.keys(this.tabs).find(id => this.tabs[id].free)`
(src/index.js line 136): the first free tab id in insertion order. -/
def findFreeTab : List (String × Bool) → Option String
  | [] => none
  | e :: rest => if e.2 = true then some e.1 else findFreeTab rest

/-- Source `createTab` (src/index.js lines 114-129): when the number of
registered tabs is below `maxTab`, ask the browser for a new target
(`newId`, supplied by the environment), register it free, and return its
id; otherwise fall through and return `undefined` (`none`). -/
def createTab (p : PoolState) (newId : String) : Option String × PoolState :=
  if capLt p.tabs.length p.maxTab then
    (some newId, { p with tabs := p.tabs ++ [(newId, true)] })
  else
    (none, p)

/-- Outcome of the synchronous part of `require`: either a tab id was
granted, or the caller parked on `requireResolveTasks`. -/
inductive RequireResult where
  | granted (tabId : String)
  | parked
deriving DecidableEq, Repr

/-- Source `require` (src/index.js lines 135-149) as ONE whole call run
to completion with no interleaving: take the first free tab, else
create one, else park the caller with
`requireResolveTasks.unshift(resolve)`.  The free-tab branch is
synchronous in the source and hence really atomic.  The create branch
is NOT: it spans the awaits of `createTab`, which registers the new
entry Free (lines 123-126), and the entry is marked Busy only by the
line 147 continuation — faithfully that path is `createTab` followed
later by `resumeWaiter`, and this definition fuses the two.  The fusion
is an explicit atomicity assumption of the serialized semantics `Step`
(see the C1 counterexample for the race it hides).  A parked caller
marks its tab busy only when later resumed (`resumeWaiter`). -/
def requireStep (p : PoolState) (caller : Nat) (newId : String) :
    RequireResult × PoolState :=
  match findFreeTab p.tabs with
  | some tabId => (.granted tabId, { p with tabs := setTabFree p.tabs tabId false })
  | none =>
    match createTab p newId with
    | (some tabId, p₁) => (.granted tabId, { p₁ with tabs := setTabFree p₁.tabs tabId false })
    | (none, p₁) =>
      (.parked, { p₁ with requireResolveTasks := caller :: p₁.requireResolveTasks })

/-- Source `release(tabId)` (src/index.js lines 155-164), exactly the body of
the function: look up the entry (`undefined` access raises a
`TypeError`), navigate to `about:blank` (`navOk = false` models a
rejected navigation, which aborts before any mutation), set
`tab.free = true`, and when waiters are queued `pop` the oldest resolver
and resolve it with `tabId` (the resolved waiter tag is returned).  The
own `tab.free = false` of the resumed waiter runs in a separate continuation,
modelled by `resumeWaiter`. -/
def releaseStep (p : PoolState) (tabId : String) (navOk : Bool) :
    Except JsError (Option Nat) × PoolState :=
  match lookupTab p.tabs tabId with
  | none => (.error .typeError, p)
  | some _ =>
    if navOk then
      let tabs₁ := setTabFree p.tabs tabId true
      match p.requireResolveTasks.getLast? with
      | some w =>
        (.ok (some w),
          { p with tabs := tabs₁, requireResolveTasks := p.requireResolveTasks.dropLast })
      | none => (.ok none, { p with tabs := tabs₁ })
    else
      (.error .navigateError, p)

/-- The continuation of a suspended `require` once `tabId` is delivered
(src/index.js lines 146-148): `tab.free = false`.  It runs in its own
microtask both when `await this.createTab()` returns an id and when a
parked promise is resolved by a release, and it takes `this.tabs[tabId]`
unconditionally — it never re-checks whether another caller took the
tab in between. -/
def resumeWaiter (p : PoolState) (tabId : String) : PoolState :=
  { p with tabs := setTabFree p.tabs tabId false }

/-- A whole `release`, with the continuation of the resumed waiter (when a
waiter was resolved) run immediately after the release body: the
serialized, event-loop-atomic view of a release. -/
def releaseAtomic (p : PoolState) (tabId : String) (navOk : Bool) :
    Except JsError (Option Nat) × PoolState :=
  match releaseStep p tabId navOk with
  | (.ok (some w), p₁) => (.ok (some w), resumeWaiter p₁ tabId)
  | other => other

/-- Source `chromeTabsPoll.tabs[id] = { free: true, client: ... }` during
construction: registering an already-open target.  Re-assigning an
existing key keeps its position (JS object semantics); a new key is
appended. -/
def addTab (tabs : List (String × Bool)) (id : String) : List (String × Bool) :=
  if id ∈ tabKeys tabs then setTabFree tabs id true else tabs ++ [(id, true)]

/-- The construction loop of `ChromeTabsPool.new` (src/index.js lines
70-80): each enumerated target is a pair `(id, type)`; only targets of
type `"page"` are registered. -/
def registerTargets (tabs : List (String × Bool)) :
    List (String × String) → List (String × Bool)
  | [] => tabs
  | (id, ty) :: rest =>
    registerTargets (if ty = "page" then addTab tabs id else tabs) rest

/-- Source `ChromeTabsPool.new(maxTab)` (src/index.js lines 57-82), given the
target list returned by `chrome.List`: register the `"page"` targets as
free entries and start with an empty `requireResolveTasks`. -/
def mkPool (maxTab : Capacity) (targets : List (String × String)) : PoolState :=
  { tabs := registerTargets [] targets
    maxTab := maxTab
    requireResolveTasks := [] }

/-- The mutable pool object with its nullable fields.  `destroyPoll`
assigns `null` to `tabs`, `chromeLauncher`, `port` and
`requireResolveTasks` (src/index.js lines 172-175); accessing a member
of such a `null` field raises a `TypeError`.  `chromeLauncher` and
`port` are external resources, only their presence is tracked. -/
structure PoolObj where
  port : Option Nat
  chromeLauncher : Option Bool
  tabs : Option (List (String × Bool))
  maxTab : Capacity
  requireResolveTasks : Option (List Nat)
deriving DecidableEq, Repr

/-- Source `destroyPoll` (src/index.js lines 170-176): kill the launcher and
assign `null` to every stateful field.  The second component lists the
settlements this call delivers to parked waiters — the body consists of
the kill and four plain assignments, it invokes no stored resolver and
rejects no parked promise, so the list is empty. -/
def destroyPoll (o : PoolObj) :
    PoolObj × List (Nat × Except JsError String) :=
  ({ o with tabs := none, chromeLauncher := none, port := none,
            requireResolveTasks := none }, [])

/-- Source `require` on the raw object: `Object.keys(this.tabs)` is evaluated
first (line 136) and raises a `TypeError` when `tabs` is `null`;
`this.requireResolveTasks.unshift` (line 142) is reached only on the
parking path and raises a `TypeError` when that field is `null`. -/
def requireObj (o : PoolObj) (caller : Nat) (newId : String) :
    Except JsError RequireResult × PoolObj :=
  match o.tabs with
  | none => (.error .typeError, o)
  | some tabs =>
    match findFreeTab tabs with
    | some tabId => (.ok (.granted tabId), { o with tabs := some (setTabFree tabs tabId false) })
    | none =>
      if capLt tabs.length o.maxTab then
        (.ok (.granted newId),
          { o with tabs := some (setTabFree (tabs ++ [(newId, true)]) newId false) })
      else
        match o.requireResolveTasks with
        | none => (.error .typeError, o)
        | some queue =>
          (.ok .parked, { o with requireResolveTasks := some (caller :: queue) })

/-- Source `createTab` on the raw object: `Object.keys(this.tabs)` (line 115)
raises a `TypeError` when `tabs` is `null`. -/
def createTabObj (o : PoolObj) (newId : String) :
    Except JsError (Option String) × PoolObj :=
  match o.tabs with
  | none => (.error .typeError, o)
  | some tabs =>
    if capLt tabs.length o.maxTab then
      (.ok (some newId), { o with tabs := some (tabs ++ [(newId, true)]) })
    else
      (.ok none, o)

/-- Source `release` on the raw object: `this.tabs[tabId]` (line 156) raises a
`TypeError` when `tabs` is `null`, and likewise for the later
`this.requireResolveTasks.length` access (line 160). -/
def releaseObj (o : PoolObj) (tabId : String) (navOk : Bool) :
    Except JsError (Option Nat) × PoolObj :=
  match o.tabs with
  | none => (.error .typeError, o)
  | some tabs =>
    match lookupTab tabs tabId with
    | none => (.error .typeError, o)
    | some _ =>
      if navOk then
        let tabs₁ := setTabFree tabs tabId true
        match o.requireResolveTasks with
        | none => (.error .typeError, { o with tabs := some tabs₁ })
        | some queue =>
          match queue.getLast? with
          | some w =>
            (.ok (some w), { o with tabs := some tabs₁,
                                    requireResolveTasks := some queue.dropLast })
          | none => (.ok none, { o with tabs := some tabs₁ })
      else
        (.error .navigateError, o)

/-!
Serialized whole-operation semantics with ghost ownership tracking.
-/

/-- A pool state instrumented with ghost data: `holders` records, for
each granted tab id, the tag of the caller currently holding its
client handle; `nextCaller` numbers the callers in arrival order (a
smaller tag began its `require` earlier). -/
structure SysState where
  pool : PoolState
  holders : List (Nat × String)
  nextCaller : Nat
deriving DecidableEq, Repr

/-- Drop every hold on `tabId` (a `release(tabId)` ends the hold of the
caller that was granted it). -/
def eraseHold (holders : List (Nat × String)) (tabId : String) :
    List (Nat × String) :=
  holders.filter (fun h => decide (h.2 ≠ tabId))

/-- Effect of one whole `require` call by caller `σ.nextCaller`, with
`newId` the fresh target id the browser would assign: a granted caller
starts holding the granted id, a parked caller holds nothing yet. -/
def applyRequire (σ : SysState) (newId : String) : SysState :=
  match requireStep σ.pool σ.nextCaller newId with
  | (.granted tabId, p₁) => ⟨p₁, (σ.nextCaller, tabId) :: σ.holders, σ.nextCaller + 1⟩
  | (.parked, p₁) => ⟨p₁, σ.holders, σ.nextCaller + 1⟩

/-- Effect of one whole `release(tabId)` that returned `w?` and left the
pool in `p₁`: the hold of the releasing caller on `tabId` ends, and a
resolved waiter `w` starts holding `tabId`. -/
def applyRelease (σ : SysState) (tabId : String) (w? : Option Nat)
    (p₁ : PoolState) : SysState :=
  ⟨p₁,
    (match w? with
     | some w => (w, tabId) :: eraseHold σ.holders tabId
     | none => eraseHold σ.holders tabId),
    σ.nextCaller⟩

/-- One serialized pool operation: a `require` by the next caller (the
browser-chosen id of a tab created on demand is fresh), or a successful
`release` run atomically together with the continuation of the waiter
it resolves. -/
inductive Step : SysState → SysState → Prop where
  | require (σ : SysState) (newId : String) (h : newId ∉ tabKeys σ.pool.tabs) :
      Step σ (applyRequire σ newId)
  | release (σ : SysState) (tabId : String) (w? : Option Nat) (p₁ : PoolState)
      (h : releaseAtomic σ.pool tabId true = (.ok w?, p₁)) :
      Step σ (applyRelease σ tabId w? p₁)

/-- The system state right after `ChromeTabsPool.new(maxTab)` with
enumerated targets `targets`: no holds, callers numbered from 0. -/
def initSys (maxTab : Capacity) (targets : List (String × String)) : SysState :=
  ⟨mkPool maxTab targets, [], 0⟩

/-- Iterated `Step`. -/
inductive Reaches : SysState → SysState → Prop where
  | refl (σ : SysState) : Reaches σ σ
  | tail {σ₀ σ₁ σ₂ : SysState} : Reaches σ₀ σ₁ → Step σ₁ σ₂ → Reaches σ₀ σ₂

/-- A state produced by some construction followed by any sequence of
serialized `require`/`release` operations. -/
def Reachable (σ : SysState) : Prop :=
  ∃ maxTab targets, Reaches (initSys maxTab targets) σ

/-- The session-count bound as the spec words it: `n` registered
sessions do not exceed the configured capacity. -/
def capLe (n : Nat) : Capacity → Bool
  | .finite m => n ≤ m
  | .infinite => true

/-- Capacity test as the spec words it for `createTab`: the number of
registered sessions is at least the configured capacity (never the case
for the unbounded default). -/
def atCapacity (p : PoolState) : Prop :=
  ∃ m, p.maxTab = Capacity.finite m ∧ m ≤ p.tabs.length

instance (p : PoolState) : Decidable (atCapacity p) :=
  match hm : p.maxTab with
  | .finite m =>
    if h : m ≤ p.tabs.length then .isTrue ⟨m, hm, h⟩
    else .isFalse (by
      rintro ⟨m₁, hm₁, hle⟩
      rw [hm] at hm₁
      cases hm₁
      exact h hle)
  | .infinite =>
    .isFalse (by
      rintro ⟨m₁, hm₁, -⟩
      rw [hm] at hm₁
      cases hm₁)

/-- The invariant maintained by the serialized semantics: tab ids are
distinct; the wait queue lists caller tags newest-first (strictly
decreasing) and below the arrival counter; every held id names a Busy
entry; and no id has two holders. -/
def Inv (σ : SysState) : Prop :=
  (tabKeys σ.pool.tabs).Nodup ∧
  σ.pool.requireResolveTasks.Pairwise (· > ·) ∧
  (∀ w ∈ σ.pool.requireResolveTasks, w < σ.nextCaller) ∧
  (∀ c id, (c, id) ∈ σ.holders → lookupTab σ.pool.tabs id = some false) ∧
  (∀ c₁ c₂ id, (c₁, id) ∈ σ.holders → (c₂, id) ∈ σ.holders → c₁ = c₂)

/-! Helper lemmas about the tab map primitives. -/

theorem tabKeys_setTabFree (t : List (String × Bool)) (id : String) (b : Bool) :
    tabKeys (setTabFree t id b) = tabKeys t := by
  induction t with
  | nil => rfl
  | cons e rest ih =>
    simp only [setTabFree, tabKeys, List.map_cons] at ih ⊢
    rw [ih]
    by_cases h : e.1 = id <;> simp [h]

theorem length_setTabFree (t : List (String × Bool)) (id : String) (b : Bool) :
    (setTabFree t id b).length = t.length := by
  induction t with
  | nil => rfl
  | cons e rest ih => simp only [setTabFree, List.length_cons, ih]

theorem setTabFree_of_not_mem (t : List (String × Bool)) (id : String) (b : Bool)
    (h : id ∉ tabKeys t) : setTabFree t id b = t := by
  induction t with
  | nil => rfl
  | cons e rest ih =>
    simp only [tabKeys, List.map_cons, List.mem_cons, not_or] at h
    have hne : e.1 ≠ id := fun he => h.1 he.symm
    simp only [setTabFree, if_neg hne]
    rw [ih (by simpa [tabKeys] using h.2)]

theorem setTabFree_append (t₁ t₂ : List (String × Bool)) (id : String) (b : Bool) :
    setTabFree (t₁ ++ t₂) id b = setTabFree t₁ id b ++ setTabFree t₂ id b := by
  induction t₁ with
  | nil => rfl
  | cons e rest ih => simp [setTabFree, ih]

theorem setTabFree_setTabFree (t : List (String × Bool)) (id : String) (b₁ b₂ : Bool) :
    setTabFree (setTabFree t id b₁) id b₂ = setTabFree t id b₂ := by
  induction t with
  | nil => rfl
  | cons e rest ih =>
    by_cases h : e.1 = id <;> simp only [setTabFree, h, if_pos, if_neg, ih] <;> simp [h]

theorem lookupTab_eq_none_iff (t : List (String × Bool)) (id : String) :
    lookupTab t id = none ↔ id ∉ tabKeys t := by
  induction t with
  | nil => simp [lookupTab, tabKeys]
  | cons e rest ih =>
    by_cases h : e.1 = id <;>
      simp [lookupTab, tabKeys, h, ih] <;> simp [tabKeys] at ih <;> tauto

theorem mem_tabKeys_of_lookupTab (t : List (String × Bool)) (id : String) (b : Bool)
    (h : lookupTab t id = some b) : id ∈ tabKeys t := by
  by_contra hmem
  rw [← lookupTab_eq_none_iff] at hmem
  rw [h] at hmem
  exact Option.noConfusion hmem

theorem lookupTab_setTabFree_self (t : List (String × Bool)) (id : String)
    (b₀ b : Bool) (h : lookupTab t id = some b₀) :
    lookupTab (setTabFree t id b) id = some b := by
  induction t with
  | nil => exact absurd h (by simp [lookupTab])
  | cons e rest ih =>
    by_cases he : e.1 = id
    · simp [setTabFree, lookupTab, he]
    · simp only [lookupTab, if_neg he] at h
      simp only [setTabFree, if_neg he, lookupTab, if_neg he]
      exact ih h

theorem lookupTab_setTabFree_other (t : List (String × Bool)) (id id' : String)
    (b : Bool) (h : id' ≠ id) :
    lookupTab (setTabFree t id b) id' = lookupTab t id' := by
  induction t with
  | nil => rfl
  | cons e rest ih =>
    by_cases he : e.1 = id
    · simp [setTabFree, lookupTab, he, Ne.symm h, ih]
    · by_cases he' : e.1 = id' <;> simp [setTabFree, lookupTab, he, he', h, ih]

theorem lookupTab_append_left (t₁ t₂ : List (String × Bool)) (id : String) (b : Bool)
    (h : lookupTab t₁ id = some b) : lookupTab (t₁ ++ t₂) id = some b := by
  induction t₁ with
  | nil => exact absurd h (by simp [lookupTab])
  | cons e rest ih =>
    by_cases he : e.1 = id <;> simp only [lookupTab, List.cons_append, he, if_pos, if_neg,
      if_true, if_false] <;> simp only [lookupTab, he, if_pos, if_neg] at h
    · exact h
    · exact ih h

theorem lookupTab_append_right (t₁ t₂ : List (String × Bool)) (id : String)
    (h : lookupTab t₁ id = none) : lookupTab (t₁ ++ t₂) id = lookupTab t₂ id := by
  induction t₁ with
  | nil => rfl
  | cons e rest ih =>
    by_cases he : e.1 = id
    · simp [lookupTab, he] at h
    · simp only [lookupTab, if_neg he] at h
      simp only [List.cons_append, lookupTab, if_neg he]
      exact ih h

theorem findFreeTab_lookupTab (t : List (String × Bool)) (id : String)
    (hnd : (tabKeys t).Nodup) (h : findFreeTab t = some id) :
    lookupTab t id = some true := by
  induction t with
  | nil => exact absurd h (by simp [findFreeTab])
  | cons e rest ih =>
    simp only [tabKeys, List.map_cons, List.nodup_cons] at hnd
    by_cases hf : e.2 = true
    · simp only [findFreeTab, if_pos hf, Option.some.injEq] at h
      simp [lookupTab, h, hf]
    · simp only [findFreeTab, if_neg hf] at h
      have hrest := ih hnd.2 h
      have hmem : id ∈ tabKeys rest := mem_tabKeys_of_lookupTab rest id true hrest
      have hne : e.1 ≠ id := fun hc => hnd.1 (by simpa [tabKeys, hc] using hmem)
      simp only [lookupTab, if_neg hne]
      exact hrest

theorem mem_tabKeys_iff (t : List (String × Bool)) (id : String) :
    id ∈ tabKeys t ↔ ∃ b, (id, b) ∈ t := by
  simp only [tabKeys, List.mem_map, Prod.exists]
  constructor
  · rintro ⟨a, b, hmem, rfl⟩
    exact ⟨b, hmem⟩
  · rintro ⟨b, hmem⟩
    exact ⟨id, b, hmem, rfl⟩

theorem getLast?_min (l : List Nat) (m : Nat) (hp : l.Pairwise (· > ·))
    (h : l.getLast? = some m) : ∀ a ∈ l, m ≤ a := by
  induction l with
  | nil => intro a ha; simp at ha
  | cons x rest ih =>
    intro a ha
    cases rest with
    | nil =>
      have hm : x = m := by simpa using h
      have hax : a = x := by simpa using ha
      omega
    | cons y rest' =>
      rw [List.getLast?_cons_cons] at h
      have hmem : m ∈ y :: rest' := List.mem_of_mem_getLast? h
      rcases List.mem_cons.mp ha with hax | hax
      · have := (List.pairwise_cons.mp hp).1 m hmem
        omega
      · exact ih (List.pairwise_cons.mp hp).2 h a hax

/-! Facts about construction (`mkPool`). -/

theorem snd_mem_setTabFree (t : List (String × Bool)) (id : String) (b : Bool) :
    ∀ e ∈ setTabFree t id b, e.2 = b ∨ e ∈ t := by
  induction t with
  | nil => simp [setTabFree]
  | cons x rest ih =>
    intro e he
    simp only [setTabFree, List.mem_cons] at he
    rcases he with he | he
    · by_cases hx : x.1 = id
      · rw [if_pos hx] at he
        left
        rw [he]
      · rw [if_neg hx] at he
        right
        simp [he]
    · rcases ih e he with h | h
      · exact Or.inl h
      · exact Or.inr (List.mem_cons_of_mem x h)

theorem mem_tabKeys_addTab (tabs : List (String × Bool)) (id id' : String) :
    id' ∈ tabKeys (addTab tabs id) ↔ id' ∈ tabKeys tabs ∨ id' = id := by
  by_cases hmem : id ∈ tabKeys tabs
  · rw [addTab, if_pos hmem, tabKeys_setTabFree]
    constructor
    · exact Or.inl
    · rintro (h | rfl)
      · exact h
      · exact hmem
  · rw [addTab, if_neg hmem]
    simp [tabKeys]

theorem allTrue_addTab (tabs : List (String × Bool)) (id : String)
    (h : ∀ e ∈ tabs, e.2 = true) : ∀ e ∈ addTab tabs id, e.2 = true := by
  intro e he
  by_cases hmem : id ∈ tabKeys tabs
  · rw [addTab, if_pos hmem] at he
    rcases snd_mem_setTabFree tabs id true e he with h1 | h1
    · exact h1
    · exact h e h1
  · rw [addTab, if_neg hmem] at he
    rcases List.mem_append.mp he with h1 | h1
    · exact h e h1
    · simp only [List.mem_singleton] at h1
      rw [h1]

theorem nodup_tabKeys_addTab (tabs : List (String × Bool)) (id : String)
    (h : (tabKeys tabs).Nodup) : (tabKeys (addTab tabs id)).Nodup := by
  by_cases hmem : id ∈ tabKeys tabs
  · rw [addTab, if_pos hmem, tabKeys_setTabFree]
    exact h
  · rw [addTab, if_neg hmem]
    simp only [tabKeys, List.map_append, List.map_cons, List.map_nil]
    simp only [tabKeys] at h hmem
    exact List.Nodup.append h (List.nodup_singleton id)
      (by simpa [List.disjoint_singleton] using hmem)

theorem mem_tabKeys_registerTargets (ts : List (String × String)) :
    ∀ (acc : List (String × Bool)) (id : String),
      id ∈ tabKeys (registerTargets acc ts) ↔
        id ∈ tabKeys acc ∨ (id, "page") ∈ ts := by
  induction ts with
  | nil =>
    intro acc id
    simp [registerTargets]
  | cons t rest ih =>
    intro acc id
    obtain ⟨tid, tty⟩ := t
    by_cases hty : tty = "page"
    · subst hty
      have hreg : registerTargets acc ((tid, "page") :: rest) =
          registerTargets (addTab acc tid) rest := by
        simp [registerTargets]
      rw [hreg, ih, mem_tabKeys_addTab]
      simp only [List.mem_cons, Prod.mk.injEq]
      tauto
    · simp only [registerTargets, if_neg hty]
      rw [ih]
      simp only [List.mem_cons, Prod.mk.injEq]
      constructor
      · rintro (h | h)
        · exact Or.inl h
        · exact Or.inr (Or.inr h)
      · rintro (h | ⟨h1, h2⟩ | h)
        · exact Or.inl h
        · exact absurd h2.symm hty
        · exact Or.inr h

theorem allTrue_registerTargets (ts : List (String × String)) :
    ∀ (acc : List (String × Bool)), (∀ e ∈ acc, e.2 = true) →
      ∀ e ∈ registerTargets acc ts, e.2 = true := by
  induction ts with
  | nil =>
    intro acc h
    simpa [registerTargets] using h
  | cons t rest ih =>
    intro acc h
    obtain ⟨tid, tty⟩ := t
    by_cases hty : tty = "page"
    · simp only [registerTargets, if_pos hty]
      exact ih _ (allTrue_addTab acc tid h)
    · simp only [registerTargets, if_neg hty]
      exact ih _ h

theorem nodup_tabKeys_registerTargets (ts : List (String × String)) :
    ∀ (acc : List (String × Bool)), (tabKeys acc).Nodup →
      (tabKeys (registerTargets acc ts)).Nodup := by
  induction ts with
  | nil =>
    intro acc h
    simpa [registerTargets] using h
  | cons t rest ih =>
    intro acc h
    obtain ⟨tid, tty⟩ := t
    by_cases hty : tty = "page"
    · simp only [registerTargets, if_pos hty]
      exact ih _ (nodup_tabKeys_addTab acc tid h)
    · simp only [registerTargets, if_neg hty]
      exact ih _ h

/-! Characterizations of the pool operations, one per source branch. -/

theorem requireStep_free (p : PoolState) (c : Nat) (newId tabId : String)
    (h : findFreeTab p.tabs = some tabId) :
    requireStep p c newId =
      (.granted tabId, { p with tabs := setTabFree p.tabs tabId false }) := by
  simp [requireStep, h]

theorem requireStep_create (p : PoolState) (c : Nat) (newId : String)
    (hfree : findFreeTab p.tabs = none)
    (hcap : capLt p.tabs.length p.maxTab = true)
    (hfresh : newId ∉ tabKeys p.tabs) :
    requireStep p c newId =
      (.granted newId, { p with tabs := p.tabs ++ [(newId, false)] }) := by
  simp only [requireStep, hfree, createTab, hcap, if_true, if_pos]
  rw [setTabFree_append, setTabFree_of_not_mem _ _ _ hfresh]
  simp [setTabFree]

theorem requireStep_parked (p : PoolState) (c : Nat) (newId : String)
    (hfree : findFreeTab p.tabs = none)
    (hcap : capLt p.tabs.length p.maxTab = false) :
    requireStep p c newId =
      (.parked, { p with requireResolveTasks := c :: p.requireResolveTasks }) := by
  simp [requireStep, createTab, hfree, hcap]

theorem releaseStep_unknown (p : PoolState) (tabId : String) (navOk : Bool)
    (h : lookupTab p.tabs tabId = none) :
    releaseStep p tabId navOk = (.error .typeError, p) := by
  simp [releaseStep, h]

theorem releaseStep_navFail (p : PoolState) (tabId : String) (b : Bool)
    (h : lookupTab p.tabs tabId = some b) :
    releaseStep p tabId false = (.error .navigateError, p) := by
  simp [releaseStep, h]

theorem releaseStep_known (p : PoolState) (tabId : String) (b : Bool)
    (h : lookupTab p.tabs tabId = some b) :
    releaseStep p tabId true =
      (.ok p.requireResolveTasks.getLast?,
        { p with tabs := setTabFree p.tabs tabId true,
                 requireResolveTasks := p.requireResolveTasks.dropLast }) := by
  cases hq : p.requireResolveTasks.getLast? with
  | none =>
    have hnil : p.requireResolveTasks = [] := List.getLast?_eq_none_iff.mp hq
    simp [releaseStep, h, hq, hnil]
  | some w => simp [releaseStep, h, hq]

theorem releaseAtomic_unknown (p : PoolState) (tabId : String) (navOk : Bool)
    (h : lookupTab p.tabs tabId = none) :
    releaseAtomic p tabId navOk = (.error .typeError, p) := by
  simp [releaseAtomic, releaseStep_unknown p tabId navOk h]

theorem releaseAtomic_navFail (p : PoolState) (tabId : String) (b : Bool)
    (h : lookupTab p.tabs tabId = some b) :
    releaseAtomic p tabId false = (.error .navigateError, p) := by
  simp [releaseAtomic, releaseStep_navFail p tabId b h]

theorem releaseAtomic_noWaiter (p : PoolState) (tabId : String) (b : Bool)
    (h : lookupTab p.tabs tabId = some b)
    (hq : p.requireResolveTasks.getLast? = none) :
    releaseAtomic p tabId true =
      (.ok none, { p with tabs := setTabFree p.tabs tabId true }) := by
  have hnil : p.requireResolveTasks = [] := List.getLast?_eq_none_iff.mp hq
  rw [releaseAtomic, releaseStep_known p tabId b h, hq]
  simp [hnil]

theorem releaseAtomic_handoff (p : PoolState) (tabId : String) (b : Bool) (w : Nat)
    (h : lookupTab p.tabs tabId = some b)
    (hq : p.requireResolveTasks.getLast? = some w) :
    releaseAtomic p tabId true =
      (.ok (some w),
        { p with tabs := setTabFree p.tabs tabId false,
                 requireResolveTasks := p.requireResolveTasks.dropLast }) := by
  rw [releaseAtomic, releaseStep_known p tabId b h, hq]
  simp [resumeWaiter, setTabFree_setTabFree]

/-! The serialized-semantics invariant. -/

theorem mem_eraseHold (holders : List (Nat × String)) (tabId : String)
    (c : Nat) (id : String) :
    (c, id) ∈ eraseHold holders tabId ↔ (c, id) ∈ holders ∧ id ≠ tabId := by
  simp [eraseHold, List.mem_filter]

theorem applyRequire_grantFree (σ : SysState) (newId tabId : String)
    (hfind : findFreeTab σ.pool.tabs = some tabId) :
    applyRequire σ newId =
      ⟨{ σ.pool with tabs := setTabFree σ.pool.tabs tabId false },
        (σ.nextCaller, tabId) :: σ.holders, σ.nextCaller + 1⟩ := by
  rw [applyRequire, requireStep_free σ.pool σ.nextCaller newId tabId hfind]

theorem applyRequire_grantNew (σ : SysState) (newId : String)
    (hfree : findFreeTab σ.pool.tabs = none)
    (hcap : capLt σ.pool.tabs.length σ.pool.maxTab = true)
    (hfresh : newId ∉ tabKeys σ.pool.tabs) :
    applyRequire σ newId =
      ⟨{ σ.pool with tabs := σ.pool.tabs ++ [(newId, false)] },
        (σ.nextCaller, newId) :: σ.holders, σ.nextCaller + 1⟩ := by
  rw [applyRequire, requireStep_create σ.pool σ.nextCaller newId hfree hcap hfresh]

theorem applyRequire_parked (σ : SysState) (newId : String)
    (hfree : findFreeTab σ.pool.tabs = none)
    (hcap : capLt σ.pool.tabs.length σ.pool.maxTab = false) :
    applyRequire σ newId =
      ⟨{ σ.pool with
          requireResolveTasks := σ.nextCaller :: σ.pool.requireResolveTasks },
        σ.holders, σ.nextCaller + 1⟩ := by
  rw [applyRequire, requireStep_parked σ.pool σ.nextCaller newId hfree hcap]

theorem inv_init (maxTab : Capacity) (targets : List (String × String)) :
    Inv (initSys maxTab targets) := by
  refine ⟨?_, ?_, ?_, ?_, ?_⟩
  · exact nodup_tabKeys_registerTargets targets [] (by simp [tabKeys])
  · exact List.Pairwise.nil
  · intro w hw
    simp [initSys, mkPool] at hw
  · intro c id h
    simp [initSys] at h
  · intro c₁ c₂ id h
    simp [initSys] at h

theorem inv_step {σ σ₂ : SysState} (hinv : Inv σ) (hs : Step σ σ₂) : Inv σ₂ := by
  obtain ⟨hnd, hsort, hlt, hbusy, huniq⟩ := hinv
  cases hs with
  | require newId hfresh =>
    cases hfind : findFreeTab σ.pool.tabs with
    | some tabId =>
      rw [applyRequire_grantFree σ newId tabId hfind]
      have hfree : lookupTab σ.pool.tabs tabId = some true :=
        findFreeTab_lookupTab σ.pool.tabs tabId hnd hfind
      refine ⟨?_, hsort, ?_, ?_, ?_⟩
      · rw [tabKeys_setTabFree]
        exact hnd
      · intro w hw
        exact Nat.lt_succ_of_lt (hlt w hw)
      · intro c id hmem
        rcases List.mem_cons.mp hmem with hmem | hmem
        · simp only [Prod.mk.injEq] at hmem
          rw [hmem.2]
          exact lookupTab_setTabFree_self σ.pool.tabs tabId true false hfree
        · have hold := hbusy c id hmem
          by_cases hid : id = tabId
          · subst hid
            exact absurd (hfree.symm.trans hold) (by simp)
          · rw [lookupTab_setTabFree_other σ.pool.tabs tabId id false hid]
            exact hold
      · intro c₁ c₂ id h₁ h₂
        rcases List.mem_cons.mp h₁ with h₁ | h₁ <;>
          rcases List.mem_cons.mp h₂ with h₂ | h₂
        · simp only [Prod.mk.injEq] at h₁ h₂
          rw [h₁.1, h₂.1]
        · simp only [Prod.mk.injEq] at h₁
          rw [h₁.2] at h₂
          exact absurd (hfree.symm.trans (hbusy c₂ tabId h₂)) (by simp)
        · simp only [Prod.mk.injEq] at h₂
          rw [h₂.2] at h₁
          exact absurd (hfree.symm.trans (hbusy c₁ tabId h₁)) (by simp)
        · exact huniq c₁ c₂ id h₁ h₂
    | none =>
      cases hcap : capLt σ.pool.tabs.length σ.pool.maxTab with
      | true =>
        rw [applyRequire_grantNew σ newId hfind hcap hfresh]
        have hnone : lookupTab σ.pool.tabs newId = none :=
          (lookupTab_eq_none_iff σ.pool.tabs newId).mpr hfresh
        refine ⟨?_, hsort, ?_, ?_, ?_⟩
        · simp only [tabKeys, List.map_append, List.map_cons, List.map_nil]
          simp only [tabKeys] at hnd hfresh
          exact List.Nodup.append hnd (List.nodup_singleton newId)
            (by simpa [List.disjoint_singleton] using hfresh)
        · intro w hw
          exact Nat.lt_succ_of_lt (hlt w hw)
        · intro c id hmem
          rcases List.mem_cons.mp hmem with hmem | hmem
          · simp only [Prod.mk.injEq] at hmem
            rw [hmem.2]
            rw [lookupTab_append_right σ.pool.tabs [(newId, false)] newId hnone]
            simp [lookupTab]
          · exact lookupTab_append_left σ.pool.tabs [(newId, false)] id false
              (hbusy c id hmem)
        · intro c₁ c₂ id h₁ h₂
          rcases List.mem_cons.mp h₁ with h₁ | h₁ <;>
            rcases List.mem_cons.mp h₂ with h₂ | h₂
          · simp only [Prod.mk.injEq] at h₁ h₂
            rw [h₁.1, h₂.1]
          · simp only [Prod.mk.injEq] at h₁
            rw [h₁.2] at h₂
            exact absurd (mem_tabKeys_of_lookupTab σ.pool.tabs newId false
              (hbusy c₂ newId h₂)) hfresh
          · simp only [Prod.mk.injEq] at h₂
            rw [h₂.2] at h₁
            exact absurd (mem_tabKeys_of_lookupTab σ.pool.tabs newId false
              (hbusy c₁ newId h₁)) hfresh
          · exact huniq c₁ c₂ id h₁ h₂
      | false =>
        rw [applyRequire_parked σ newId hfind hcap]
        refine ⟨hnd, ?_, ?_, hbusy, huniq⟩
        · exact List.pairwise_cons.mpr ⟨fun w hw => hlt w hw, hsort⟩
        · intro w hw
          rcases List.mem_cons.mp hw with hw | hw
          · rw [hw]
            exact Nat.lt_succ_self _
          · exact Nat.lt_succ_of_lt (hlt w hw)
  | release tabId w? p₁ h =>
    cases hl : lookupTab σ.pool.tabs tabId with
    | none =>
      rw [releaseAtomic_unknown σ.pool tabId true hl] at h
      simp at h
    | some b =>
      cases hq : σ.pool.requireResolveTasks.getLast? with
      | none =>
        rw [releaseAtomic_noWaiter σ.pool tabId b hl hq] at h
        simp only [Prod.mk.injEq, Except.ok.injEq] at h
        obtain ⟨hw, hp⟩ := h
        rw [← hw, ← hp]
        dsimp only [applyRelease]
        refine ⟨?_, hsort, hlt, ?_, ?_⟩
        · rw [tabKeys_setTabFree]
          exact hnd
        · intro c id hmem
          rw [mem_eraseHold] at hmem
          obtain ⟨hm, hne⟩ := hmem
          rw [lookupTab_setTabFree_other σ.pool.tabs tabId id true hne]
          exact hbusy c id hm
        · intro c₁ c₂ id h₁ h₂
          rw [mem_eraseHold] at h₁ h₂
          exact huniq c₁ c₂ id h₁.1 h₂.1
      | some w =>
        rw [releaseAtomic_handoff σ.pool tabId b w hl hq] at h
        simp only [Prod.mk.injEq, Except.ok.injEq] at h
        obtain ⟨hw, hp⟩ := h
        rw [← hw, ← hp]
        dsimp only [applyRelease]
        refine ⟨?_, ?_, ?_, ?_, ?_⟩
        · rw [tabKeys_setTabFree]
          exact hnd
        · exact hsort.sublist (List.dropLast_sublist _)
        · intro w₁ hw₁
          exact hlt w₁ ((List.dropLast_sublist _).subset hw₁)
        · intro c id hmem
          rcases List.mem_cons.mp hmem with hmem | hmem
          · simp only [Prod.mk.injEq] at hmem
            rw [hmem.2]
            exact lookupTab_setTabFree_self σ.pool.tabs tabId b false hl
          · rw [mem_eraseHold] at hmem
            obtain ⟨hm, hne⟩ := hmem
            rw [lookupTab_setTabFree_other σ.pool.tabs tabId id false hne]
            exact hbusy c id hm
        · intro c₁ c₂ id h₁ h₂
          rcases List.mem_cons.mp h₁ with h₁ | h₁ <;>
            rcases List.mem_cons.mp h₂ with h₂ | h₂
          · simp only [Prod.mk.injEq] at h₁ h₂
            rw [h₁.1, h₂.1]
          · simp only [Prod.mk.injEq] at h₁
            rw [mem_eraseHold] at h₂
            exact absurd h₁.2 h₂.2
          · simp only [Prod.mk.injEq] at h₂
            rw [mem_eraseHold] at h₁
            exact absurd h₂.2 h₁.2
          · rw [mem_eraseHold] at h₁ h₂
            exact huniq c₁ c₂ id h₁.1 h₂.1


theorem inv_reaches {σ₀ σ : SysState} (h : Reaches σ₀ σ) (h₀ : Inv σ₀) : Inv σ := by
  induction h with
  | refl => exact h₀
  | tail hr hs ih => exact inv_step ih hs

theorem inv_reachable {σ : SysState} (h : Reachable σ) : Inv σ := by
  obtain ⟨maxTab, targets, hr⟩ := h
  exact inv_reaches hr (inv_init maxTab targets)

/-! Capacity bookkeeping. -/

theorem capLe_succ_of_capLt (n : Nat) (c : Capacity) (h : capLt n c = true) :
    capLe (n + 1) c = true := by
  cases c with
  | finite m =>
    simp only [capLt, decide_eq_true_eq] at h
    simp only [capLe, decide_eq_true_eq]
    omega
  | infinite => rfl

theorem atCapacity_iff (p : PoolState) :
    atCapacity p ↔ capLt p.tabs.length p.maxTab = false := by
  cases hm : p.maxTab with
  | finite m => simp [atCapacity, capLt, hm]
  | infinite => simp [atCapacity, capLt, hm]

theorem releaseAtomic_preserves (p : PoolState) (tabId : String) (navOk : Bool) :
    (releaseAtomic p tabId navOk).2.tabs.length = p.tabs.length ∧
    (releaseAtomic p tabId navOk).2.maxTab = p.maxTab := by
  cases hl : lookupTab p.tabs tabId with
  | none =>
    rw [releaseAtomic_unknown p tabId navOk hl]
    exact ⟨rfl, rfl⟩
  | some b =>
    cases navOk with
    | false =>
      rw [releaseAtomic_navFail p tabId b hl]
      exact ⟨rfl, rfl⟩
    | true =>
      cases hq : p.requireResolveTasks.getLast? with
      | none =>
        rw [releaseAtomic_noWaiter p tabId b hl hq]
        exact ⟨length_setTabFree p.tabs tabId true, rfl⟩
      | some w =>
        rw [releaseAtomic_handoff p tabId b w hl hq]
        exact ⟨length_setTabFree p.tabs tabId false, rfl⟩

theorem step_capLe {σ σ₂ : SysState} (hs : Step σ σ₂)
    (h : capLe σ.pool.tabs.length σ.pool.maxTab = true) :
    capLe σ₂.pool.tabs.length σ₂.pool.maxTab = true ∧
    σ₂.pool.maxTab = σ.pool.maxTab := by
  cases hs with
  | require newId hfresh =>
    cases hfind : findFreeTab σ.pool.tabs with
    | some tabId =>
      rw [applyRequire_grantFree σ newId tabId hfind]
      dsimp only
      rw [length_setTabFree]
      exact ⟨h, rfl⟩
    | none =>
      cases hcap : capLt σ.pool.tabs.length σ.pool.maxTab with
      | true =>
        rw [applyRequire_grantNew σ newId hfind hcap hfresh]
        dsimp only
        rw [List.length_append, List.length_singleton]
        exact ⟨capLe_succ_of_capLt σ.pool.tabs.length σ.pool.maxTab hcap, rfl⟩
      | false =>
        rw [applyRequire_parked σ newId hfind hcap]
        exact ⟨h, rfl⟩
  | release tabId w? p₁ hrel =>
    have hp : p₁ = (releaseAtomic σ.pool tabId true).2 := by
      rw [hrel]
    obtain ⟨hlen, hmax⟩ := releaseAtomic_preserves σ.pool tabId true
    dsimp only [applyRelease]
    rw [hp, hlen, hmax]
    exact ⟨h, rfl⟩

theorem reaches_cap {σ₀ σ : SysState} (h : Reaches σ₀ σ)
    (h₀ : capLe σ₀.pool.tabs.length σ₀.pool.maxTab = true) :
    capLe σ.pool.tabs.length σ.pool.maxTab = true ∧
    σ.pool.maxTab = σ₀.pool.maxTab := by
  induction h with
  | refl => exact ⟨h₀, rfl⟩
  | tail hr hs ih =>
    obtain ⟨ih1, ih2⟩ := ih
    obtain ⟨s1, s2⟩ := step_capLe hs ih1
    exact ⟨s1, s2.trans ih2⟩

/-! The claims. -/

/-- C1 counterexample, two double-grant races, neither involving more
atomicity than the source provides.
Race (a), the createTab window, involves no release at all: on an empty
pool of capacity 1, the `require` of caller 10 finds no free tab and
awaits `createTab`, which registers the fresh tab "n" FREE (lines
123-126) and returns its id; before the line 147 continuation of caller
10 runs (a later microtask), the `require` of caller 11 finds "n" free
and is granted it; the resumed continuation of caller 10
(`resumeWaiter`) then unconditionally takes the same "n" — its state
write is even a no-op — and returns its client, so callers 10 and 11
both hold "n".
Race (b), the release window: tab "t" is Busy and caller 9 is parked;
the release body resolves waiter 9 with "t" but leaves the entry marked
Free, and a `require` of caller 10 that runs before the continuation of
waiter 9 is granted the same "t". -/
theorem C1_counterexample :
    createTab ⟨[], Capacity.finite 1, []⟩ "n" =
      (some "n", ⟨[("n", true)], Capacity.finite 1, []⟩) ∧
    (requireStep ⟨[("n", true)], Capacity.finite 1, []⟩ 11 "y").1 =
      RequireResult.granted "n" ∧
    resumeWaiter ⟨[("n", false)], Capacity.finite 1, []⟩ "n" =
      ⟨[("n", false)], Capacity.finite 1, []⟩ ∧
    releaseStep ⟨[("t", false)], Capacity.finite 1, [9]⟩ "t" true =
      (Except.ok (some 9), ⟨[("t", true)], Capacity.finite 1, []⟩) ∧
    (requireStep ⟨[("t", true)], Capacity.finite 1, []⟩ 10 "x").1 =
      RequireResult.granted "t" := by
  decide

/-- C1 amended: provided the pool operations are fully serialized —
each `require` runs to completion with no interleaving (in particular
the Free registration of a created tab and its Busy marking, which the
source splits across awaits, happen together), and each release runs
atomically together with the continuation of the waiter it resolves —
no session id is ever held by two callers at once: in every reachable
instrumented state every held id has exactly one holder, and its entry
is Busy until that id is released.  This full serialization is exactly
the `Step`/`Reachable` semantics quantified over here; both fusions are
needed, as the two races of the counterexample show. -/
theorem C1_exclusive_holds (σ : SysState) (h : Reachable σ) :
    (∀ c₁ c₂ id, (c₁, id) ∈ σ.holders → (c₂, id) ∈ σ.holders → c₁ = c₂) ∧
    (∀ c id, (c, id) ∈ σ.holders → lookupTab σ.pool.tabs id = some false) := by
  obtain ⟨-, -, -, hbusy, huniq⟩ := inv_reachable h
  exact ⟨huniq, hbusy⟩

/-- C1 witness: a construction with one page target followed by one
`require` step; the granted tab "t" is Busy and held by caller 0. -/
theorem C1_exclusive_holds_witness :
    lookupTab
      (applyRequire (initSys Capacity.infinite [("t", "page")]) "x").pool.tabs
      "t" = some false :=
  (C1_exclusive_holds _
    ⟨Capacity.infinite, [("t", "page")],
      Reaches.tail (Reaches.refl _) (Step.require _ "x" (by decide))⟩).2
    0 "t" (by decide)

/-- C2 counterexample: `ChromeTabsPool.new(1)` with two pre-existing
"page" targets registers both — the construction loop never checks
`maxTab` — so in this reachable (initial) state the session count is 2,
exceeding the configured capacity 1. -/
theorem C2_counterexample :
    Reachable (initSys (Capacity.finite 1) [("a", "page"), ("b", "page")]) ∧
    (initSys (Capacity.finite 1) [("a", "page"), ("b", "page")]).pool.tabs.length = 2 ∧
    capLe (initSys (Capacity.finite 1) [("a", "page"), ("b", "page")]).pool.tabs.length
      (Capacity.finite 1) = false :=
  ⟨⟨Capacity.finite 1, [("a", "page"), ("b", "page")], Reaches.refl _⟩,
    by decide, by decide⟩

/-- C2 amended: whenever the construction itself respects the bound
(the enumerated page targets number at most `maxTab`), every reachable
state keeps the number of registered sessions at most `maxTab`:
`createTab` is the only operation that adds an entry and it checks the
capacity first. -/
theorem C2_capacity (maxTab : Capacity) (targets : List (String × String))
    (σ : SysState) (h : Reaches (initSys maxTab targets) σ)
    (h₀ : capLe (initSys maxTab targets).pool.tabs.length maxTab = true) :
    capLe σ.pool.tabs.length σ.pool.maxTab = true ∧ σ.pool.maxTab = maxTab :=
  reaches_cap h h₀

/-- C2 witness: capacity 2, one initial page target, one `require` step
(which creates a second tab); the bound still holds afterwards. -/
theorem C2_capacity_witness :
    capLe (applyRequire (initSys (Capacity.finite 2) [("a", "page")]) "x").pool.tabs.length
      (applyRequire (initSys (Capacity.finite 2) [("a", "page")]) "x").pool.maxTab = true :=
  (C2_capacity (Capacity.finite 2) [("a", "page")] _
    (Reaches.tail (Reaches.refl _) (Step.require _ "x" (by decide)))
    (by decide)).1

/-- C3: in every reachable state the wait queue (filled by `unshift`,
drained by `pop`) lists caller tags newest-first — strictly decreasing,
as tags increase with arrival — and any release that resolves a waiter
resolves one whose tag is minimal in the queue, i.e. the
longest-waiting caller.  Waiters are therefore resolved strictly in
arrival (FIFO) order. -/
theorem C3_fifo (σ : SysState) (h : Reachable σ) :
    σ.pool.requireResolveTasks.Pairwise (· > ·) ∧
    (∀ tabId w p₁, releaseAtomic σ.pool tabId true = (.ok (some w), p₁) →
      ∀ a ∈ σ.pool.requireResolveTasks, w ≤ a) := by
  obtain ⟨-, hsort, -, -, -⟩ := inv_reachable h
  refine ⟨hsort, ?_⟩
  intro tabId w p₁ hrel a ha
  have hq : σ.pool.requireResolveTasks.getLast? = some w := by
    cases hl : lookupTab σ.pool.tabs tabId with
    | none =>
      rw [releaseAtomic_unknown σ.pool tabId true hl] at hrel
      simp at hrel
    | some b =>
      cases hq₀ : σ.pool.requireResolveTasks.getLast? with
      | none =>
        rw [releaseAtomic_noWaiter σ.pool tabId b hl hq₀] at hrel
        simp at hrel
      | some w₁ =>
        rw [releaseAtomic_handoff σ.pool tabId b w₁ hl hq₀] at hrel
        have hw : w₁ = w := by
          have hfst := congrArg Prod.fst hrel
          simpa using hfst
        rw [hw]
  exact getLast?_min σ.pool.requireResolveTasks w hsort hq a ha

/-- C3 witness: capacity 1, tab "t" granted to caller 0, callers 1 and
2 parked in that order (queue `[2, 1]`); a release of "t" resolves
waiter 1, the longest-waiting one. -/
theorem C3_fifo_witness :
    (applyRequire (applyRequire (applyRequire (initSys (Capacity.finite 1)
      [("t", "page")]) "x") "y") "z").pool.requireResolveTasks.Pairwise (· > ·) ∧
    (1 : Nat) ≤ 2 := by
  have hreach : Reachable (applyRequire (applyRequire (applyRequire
      (initSys (Capacity.finite 1) [("t", "page")]) "x") "y") "z") :=
    ⟨Capacity.finite 1, [("t", "page")],
      Reaches.tail (Reaches.tail (Reaches.tail (Reaches.refl _)
        (Step.require _ "x" (by decide)))
        (Step.require _ "y" (by decide)))
        (Step.require _ "z" (by decide))⟩
  refine ⟨(C3_fifo _ hreach).1, ?_⟩
  exact (C3_fifo _ hreach).2 "t" 1 ⟨[("t", false)], Capacity.finite 1, [2]⟩
    (by decide) 2 (by decide)

/-- C4 counterexample: tab "t" Busy, caller 7 parked.  After the
release body itself has run (src lines 155-164) the waiter is resolved,
yet the entry is marked Free — the code executes `tab.free = true`
before checking the queue — so the entry does not remain Busy at this
intermediate step; it becomes Busy again only once the continuation
of the waiter runs. -/
theorem C4_counterexample :
    (releaseStep ⟨[("t", false)], Capacity.finite 1, [7]⟩ "t" true).1 =
      Except.ok (some 7) ∧
    lookupTab
      (releaseStep ⟨[("t", false)], Capacity.finite 1, [7]⟩ "t" true).2.tabs
      "t" = some true := by
  decide

/-- C4 amended: a release with pending waiters transiently marks the
entry Free (the release body), then resolves the oldest waiter with the
session id; after the continuation of the waiter has also run the entry is
Busy again, owned by that waiter, and the queue lost its oldest
element.  Only the serialized whole release (`releaseAtomic`) never
exposes the transient Free state to other operations. -/
theorem C4_handoff (p : PoolState) (tabId : String) (b : Bool) (w : Nat)
    (hl : lookupTab p.tabs tabId = some b)
    (hq : p.requireResolveTasks.getLast? = some w) :
    lookupTab (releaseStep p tabId true).2.tabs tabId = some true ∧
    (releaseStep p tabId true).1 = .ok (some w) ∧
    releaseAtomic p tabId true =
      (.ok (some w),
        { p with tabs := setTabFree p.tabs tabId false,
                 requireResolveTasks := p.requireResolveTasks.dropLast }) ∧
    lookupTab (releaseAtomic p tabId true).2.tabs tabId = some false := by
  have hstep := releaseStep_known p tabId b hl
  have hat := releaseAtomic_handoff p tabId b w hl hq
  refine ⟨?_, ?_, hat, ?_⟩
  · rw [hstep]
    exact lookupTab_setTabFree_self p.tabs tabId b true hl
  · rw [hstep]
    dsimp only
    rw [hq]
  · rw [hat]
    exact lookupTab_setTabFree_self p.tabs tabId b false hl

/-- C4 witness: the amended handoff evaluated on the concrete state of
the counterexample — after the full handoff the entry is Busy again. -/
theorem C4_handoff_witness :
    lookupTab
      (releaseAtomic ⟨[("t", false)], Capacity.finite 1, [7]⟩ "t" true).2.tabs
      "t" = some false :=
  (C4_handoff ⟨[("t", false)], Capacity.finite 1, [7]⟩ "t" false 7
    (by decide) (by decide)).2.2.2

/-- C5 counterexample: releasing an id whose entry is already Free
succeeds — with an empty queue the pool is even returned unchanged —
contradicting the claim that such a release fails with
`DoubleReleaseError`. -/
theorem C5_counterexample :
    releaseStep ⟨[("t", true)], Capacity.infinite, []⟩ "t" true =
      (Except.ok none, ⟨[("t", true)], Capacity.infinite, []⟩) := by
  decide

/-- C5 amended: release with an id not in the registry raises a
`TypeError` (not a dedicated `UnknownSessionError`) and leaves the pool
unchanged; release of an id whose entry is already Free does not fail —
it succeeds, re-marks the entry Free, and still pops and resolves the
oldest waiter when one is queued. -/
theorem C5_release_errors (p : PoolState) (tabId : String) (navOk : Bool) :
    (lookupTab p.tabs tabId = none →
      releaseStep p tabId navOk = (.error .typeError, p)) ∧
    (lookupTab p.tabs tabId = some true →
      releaseStep p tabId true =
        (.ok p.requireResolveTasks.getLast?,
          { p with tabs := setTabFree p.tabs tabId true,
                   requireResolveTasks := p.requireResolveTasks.dropLast })) :=
  ⟨releaseStep_unknown p tabId navOk, releaseStep_known p tabId true⟩

/-- C5 witness: on a concrete pool, release of the unknown id "zz"
raises `TypeError` and leaves the state unchanged, while release of the
Free entry "t" succeeds and resolves parked caller 4. -/
theorem C5_release_errors_witness :
    releaseStep ⟨[("t", true)], Capacity.infinite, []⟩ "zz" true =
      (Except.error JsError.typeError, ⟨[("t", true)], Capacity.infinite, []⟩) ∧
    releaseStep ⟨[("t", true), ("u", false)], Capacity.finite 2, [4]⟩ "t" true =
      (Except.ok (some 4),
        ⟨[("t", true), ("u", false)], Capacity.finite 2, []⟩) := by
  constructor
  · exact (C5_release_errors ⟨[("t", true)], Capacity.infinite, []⟩ "zz" true).1
      (by decide)
  · exact (C5_release_errors ⟨[("t", true), ("u", false)], Capacity.finite 2, [4]⟩
      "t" true).2 (by decide)

/-- C6 counterexample: a pool with caller 5 parked on the wait queue.
`destroyPoll` clears the fields but delivers no settlement at all to
the parked caller — the body is a kill plus four null assignments and
never invokes a stored resolver — so the pending `require` promise of
the waiter neither resolves nor rejects, contradicting the claim that
every parked caller receives a failure. -/
theorem C6_counterexample :
    (destroyPoll
      ⟨some 9222, some true, some [("t", false)], Capacity.finite 1, some [5]⟩).2 = [] ∧
    (⟨some 9222, some true, some [("t", false)], Capacity.finite 1, some [5]⟩ :
      PoolObj).requireResolveTasks = some [5] := by
  decide

/-- C6 amended: `destroyPoll` does clear all internal state — `tabs`,
`chromeLauncher`, `port` and `requireResolveTasks` all become null — but
parked waiters are not failed: destruction settles no pending
`require`, so those callers remain suspended indefinitely. -/
theorem C6_destroy (o : PoolObj) :
    (destroyPoll o).1.tabs = none ∧
    (destroyPoll o).1.chromeLauncher = none ∧
    (destroyPoll o).1.port = none ∧
    (destroyPoll o).1.requireResolveTasks = none ∧
    (destroyPoll o).1.maxTab = o.maxTab ∧
    (destroyPoll o).2 = [] :=
  ⟨rfl, rfl, rfl, rfl, rfl, rfl⟩

/-- C7: `createTab` returns the `undefined` sentinel (raising nothing
and registering nothing) exactly when the registered session count has
reached `maxTab`; below capacity it registers a fresh Free entry at the
end of the registry and returns its id, leaving the wait queue alone. -/
theorem C7_createTab (p : PoolState) (newId : String)
    (hfresh : newId ∉ tabKeys p.tabs) :
    (atCapacity p → createTab p newId = (none, p)) ∧
    (¬ atCapacity p →
      (createTab p newId).1 = some newId ∧
      lookupTab (createTab p newId).2.tabs newId = some true ∧
      tabKeys (createTab p newId).2.tabs = tabKeys p.tabs ++ [newId] ∧
      (createTab p newId).2.requireResolveTasks = p.requireResolveTasks) := by
  constructor
  · intro hat
    rw [atCapacity_iff] at hat
    simp [createTab, hat]
  · intro hnot
    rw [atCapacity_iff] at hnot
    have hcap : capLt p.tabs.length p.maxTab = true := by
      cases hc : capLt p.tabs.length p.maxTab
      · exact absurd hc hnot
      · rfl
    have hstep : createTab p newId =
        (some newId, { p with tabs := p.tabs ++ [(newId, true)] }) := by
      simp [createTab, hcap]
    rw [hstep]
    refine ⟨rfl, ?_, ?_, rfl⟩
    · rw [lookupTab_append_right p.tabs [(newId, true)] newId
        ((lookupTab_eq_none_iff p.tabs newId).mpr hfresh)]
      simp [lookupTab]
    · simp [tabKeys]

/-- C7 witness: at capacity (1 tab, `maxTab = 1`) the sentinel comes
back and the pool is untouched; below capacity (`maxTab = 2`) the new
id is returned. -/
theorem C7_createTab_witness :
    createTab ⟨[("t", true)], Capacity.finite 1, []⟩ "u" =
      (none, ⟨[("t", true)], Capacity.finite 1, []⟩) ∧
    (createTab ⟨[("t", true)], Capacity.finite 2, []⟩ "u").1 = some "u" := by
  constructor
  · exact (C7_createTab ⟨[("t", true)], Capacity.finite 1, []⟩ "u" (by decide)).1
      (by decide)
  · exact ((C7_createTab ⟨[("t", true)], Capacity.finite 2, []⟩ "u" (by decide)).2
      (by decide)).1

/-- C8: the pool produced by `ChromeTabsPool.new` registers as Free
entries exactly the enumerated targets whose type is `"page"`
(background/service targets are excluded), and its wait queue starts
empty. -/
theorem C8_construction (maxTab : Capacity) (targets : List (String × String)) :
    (mkPool maxTab targets).requireResolveTasks = [] ∧
    (∀ id b, (id, b) ∈ (mkPool maxTab targets).tabs →
      b = true ∧ (id, "page") ∈ targets) ∧
    (∀ id, (id, "page") ∈ targets → (id, true) ∈ (mkPool maxTab targets).tabs) := by
  refine ⟨rfl, ?_, ?_⟩
  · intro id b hmem
    have hb : b = true :=
      allTrue_registerTargets targets [] (by simp) (id, b) hmem
    refine ⟨hb, ?_⟩
    have hkey : id ∈ tabKeys (registerTargets [] targets) :=
      (mem_tabKeys_iff (registerTargets [] targets) id).mpr ⟨b, hmem⟩
    rcases (mem_tabKeys_registerTargets targets [] id).mp hkey with h | h
    · simp [tabKeys] at h
    · exact h
  · intro id hpage
    have hkey : id ∈ tabKeys (registerTargets [] targets) :=
      (mem_tabKeys_registerTargets targets [] id).mpr (Or.inr hpage)
    obtain ⟨b, hmem⟩ := (mem_tabKeys_iff (registerTargets [] targets) id).mp hkey
    have hb : b = true :=
      allTrue_registerTargets targets [] (by simp) (id, b) hmem
    rw [← hb]
    exact hmem

/-- C9 counterexample: tab "t" Busy, caller 3 parked.  A failed reset
navigation makes release reject with the navigation error and change
nothing: the entry is not returned to service — it stays Busy and the
waiter stays parked — contradicting the claimed Free-with-warning
policy. -/
theorem C9_counterexample :
    releaseStep ⟨[("t", false)], Capacity.finite 1, [3]⟩ "t" false =
      (Except.error JsError.navigateError,
        ⟨[("t", false)], Capacity.finite 1, [3]⟩) ∧
    lookupTab [("t", false)] "t" = some false := by
  decide

/-- C9 amended: when the reset navigation fails, `release` does surface
the failure (its promise rejects with the navigation error), but the
entry is not returned to service: the rejection aborts the function
before `tab.free = true`, so the pool state is left exactly as it was —
the entry keeps its Busy state, no waiter is resolved, and the capacity
of that slot is lost. -/
theorem C9_navFail (p : PoolState) (tabId : String) (b : Bool)
    (h : lookupTab p.tabs tabId = some b) :
    releaseStep p tabId false = (.error .navigateError, p) :=
  releaseStep_navFail p tabId b h

/-- C9 witness: the amended statement on a concrete Busy entry. -/
theorem C9_navFail_witness :
    releaseStep ⟨[("t", false), ("u", true)], Capacity.finite 2, []⟩ "t" false =
      (Except.error JsError.navigateError,
        ⟨[("t", false), ("u", true)], Capacity.finite 2, []⟩) :=
  C9_navFail ⟨[("t", false), ("u", true)], Capacity.finite 2, []⟩ "t" false
    (by decide)

/-- C10: after `destroyPoll`, every call to `require`, `createTab` or
`release` dereferences the nulled `tabs` field first and raises a
`TypeError`, leaving the destroyed object unchanged: no operation on a
destroyed pool can succeed. -/
theorem C10_destroyed_ops (o : PoolObj) (caller : Nat) (newId tabId : String)
    (navOk : Bool) :
    requireObj (destroyPoll o).1 caller newId =
      (.error .typeError, (destroyPoll o).1) ∧
    createTabObj (destroyPoll o).1 newId =
      (.error .typeError, (destroyPoll o).1) ∧
    releaseObj (destroyPoll o).1 tabId navOk =
      (.error .typeError, (destroyPoll o).1) :=
  ⟨rfl, rfl, rfl⟩

end ChromePool
